import Mathlib

/-!
Verification of the PRIORITY-frame codec and agent-profile subsystem of the
penumbra-x h2 fork. Definitions are shallow embeddings of
`src/frame/priority.rs`, `src/profile.rs` and, for collaborators whose source
files are not part of the provided slice (`StreamId::parse`, `Head`, the error
enum, `PseudoType`, `AgentProfile::to_stream_dependency`), of the interface
the specification gives for them. Byte buffers are lists of naturals, each
entry standing for one `u8` (< 256 where the claims quantify over byte
slices); 32-bit words carry explicit `% 2 ^ 32` arithmetic where overflow
could matter.
-/

namespace H2

/-- Error tags surfaced by the frame layer. Modelled from the spec: the error
taxonomy of its section 7; the error enum's own source file is outside the
provided slice. -/
inductive Error where
  | InvalidPayloadLength
  | InvalidDependencyId
  | InvalidStreamId
deriving DecidableEq, Repr

/-- StreamId: a 31-bit logical stream identifier, stored as a machine word
whose top bit is zero in the logical value. -/
structure StreamId where
  id : Nat
deriving DecidableEq, Repr

/-- Big-endian 32-bit word read from the first four bytes of a buffer. -/
def word32 (src : List Nat) : Nat :=
  src.getD 0 0 * 2 ^ 24 + src.getD 1 0 * 2 ^ 16 + src.getD 2 0 * 2 ^ 8 + src.getD 3 0

/-- Modelled from the spec: `StreamId::parse` reads a 4-byte big-endian field,
returning bits 1 to 31 as the id and the most significant bit as a
caller-defined flag; its source file is outside the provided slice. -/
def StreamId.parse (src : List Nat) : StreamId × Bool :=
  let w := word32 src
  (⟨w % 2 ^ 31⟩, decide (w / 2 ^ 31 % 2 = 1))

/-- StreamDependency: the 5-byte PRIORITY payload sub-structure of
`src/frame/priority.rs`. The weight is the raw byte in 0 to 255. -/
structure StreamDependency where
  dependency_id : StreamId
  weight : Nat
  is_exclusive : Bool
deriving DecidableEq, Repr

/-- `StreamDependency::load` of `src/frame/priority.rs`: rejects any slice
whose length is not exactly 5, otherwise parses id and exclusivity from the
first four bytes and the weight from the fifth. -/
def StreamDependency.load (src : List Nat) : Except Error StreamDependency :=
  if src.length ≠ 5 then Except.error Error.InvalidPayloadLength
  else
    let p := StreamId.parse (src.take 4)
    Except.ok ⟨p.1, src.getD 4 0, p.2⟩

/-- Big-endian byte list written by `put_u32` of the bytes crate for the word
`w % 2 ^ 32`. -/
def putU32 (w : Nat) : List Nat :=
  [w / 2 ^ 24 % 2 ^ 8, w / 2 ^ 16 % 2 ^ 8, w / 2 ^ 8 % 2 ^ 8, w % 2 ^ 8]

/-- `StreamDependency::encode` of `src/frame/priority.rs`: the dependency id
word, with bit 31 set by bitwise or when the dependency is exclusive, followed
by the weight byte. -/
def StreamDependency.encode (d : StreamDependency) : List Nat :=
  let dependency_id :=
    if d.is_exclusive then d.dependency_id.id ||| 2 ^ 31 else d.dependency_id.id
  putU32 dependency_id ++ [d.weight]

/-- Modelled from the spec: the frame-type tag; only the Priority kind (wire
value 0x2) is needed by this slice, the `Kind` source file being outside it. -/
inductive Kind where
  | Priority
deriving DecidableEq, Repr

/-- Wire byte of a frame kind. -/
def Kind.toByte : Kind → Nat
  | .Priority => 2

/-- Modelled from the spec: the generic 9-byte frame header value (type,
flags, stream id) supplied by the frame-header parser, whose source file is
outside the provided slice. -/
structure Head where
  kind : Kind
  flag : Nat
  stream_id : StreamId
deriving DecidableEq, Repr

/-- `Head::new`. -/
def Head.new (kind : Kind) (flag : Nat) (stream_id : StreamId) : Head :=
  ⟨kind, flag, stream_id⟩

/-- Modelled from the spec: `Head::encode` writes the 9 header bytes of its
section 6 layout, given the payload length: a 3-byte big-endian length, the
kind byte, the flags byte, and the 4-byte big-endian stream id. -/
def Head.encode (h : Head) (length : Nat) : List Nat :=
  [length / 2 ^ 16 % 2 ^ 8, length / 2 ^ 8 % 2 ^ 8, length % 2 ^ 8,
    h.kind.toByte, h.flag % 2 ^ 8] ++ putU32 h.stream_id.id

/-- Priority frame of `src/frame/priority.rs`: the frame's own stream id plus
its dependency target. -/
structure Priority where
  stream_id : StreamId
  dependency : StreamDependency
deriving DecidableEq, Repr

/-- `Priority::new` of `src/frame/priority.rs`: plain construction, no
validation of the stream id (its doc comment allows any id, including 0). -/
def Priority.new (stream_id : StreamId) (dependency : StreamDependency) : Priority :=
  ⟨stream_id, dependency⟩

/-- `Priority::load` of `src/frame/priority.rs`: decode the dependency,
propagate its error, reject a self-dependency, otherwise succeed with the
head's stream id. -/
def Priority.load (head : Head) (payload : List Nat) : Except Error Priority :=
  match StreamDependency.load payload with
  | Except.error e => Except.error e
  | Except.ok dependency =>
    if dependency.dependency_id = head.stream_id then
      Except.error Error.InvalidDependencyId
    else Except.ok ⟨head.stream_id, dependency⟩

/-- `Priority::head` of `src/frame/priority.rs`. -/
def Priority.head (p : Priority) : Head :=
  Head.new Kind.Priority 0 p.stream_id

/-- `Priority::encode` of `src/frame/priority.rs`: the 9-byte header with
payload length 5, then the 5-byte dependency encoding. -/
def Priority.encode (p : Priority) : List Nat :=
  (Priority.head p).encode 5 ++ p.dependency.encode

/-- Modelled from the spec: the pseudo-header kind enumeration supplied by the
header-compression layer, whose source file is outside the provided slice. -/
inductive PseudoType where
  | Method
  | Scheme
  | Authority
  | Path
deriving DecidableEq, Repr

/-- AgentProfile: the closed client-identity enumeration of `src/profile.rs`. -/
inductive AgentProfile where
  | Chrome
  | Firefox
  | Safari
  | Edge
  | OkHttp
deriving DecidableEq, Repr

/-- Sentinel header name of `src/profile.rs`. -/
def xClientProfile : String := "x-client-profile"

/-- String-to-profile conversion of `src/profile.rs`: the five canonical
lowercase tokens, every other string mapping to Chrome. -/
def AgentProfile.fromString (s : String) : AgentProfile :=
  if s = "chrome" then AgentProfile.Chrome
  else if s = "firefox" then AgentProfile.Firefox
  else if s = "safari" then AgentProfile.Safari
  else if s = "edge" then AgentProfile.Edge
  else if s = "okhttp" then AgentProfile.OkHttp
  else AgentProfile.Chrome

/-- Pseudo-header ordering table of `src/profile.rs` (the `Into` impl for the
4-element PseudoType array). -/
def AgentProfile.toPseudoOrder : AgentProfile → List PseudoType
  | .Chrome => [.Method, .Authority, .Scheme, .Path]
  | .Edge => [.Method, .Authority, .Scheme, .Path]
  | .OkHttp => [.Method, .Path, .Authority, .Scheme]
  | .Safari => [.Method, .Scheme, .Path, .Authority]
  | .Firefox => [.Method, .Path, .Authority, .Scheme]

/-- Modelled from the spec: `to_stream_dependency` returns the default
priority parameters per identity; this method's source file is outside the
provided slice. -/
def AgentProfile.toStreamDependency : AgentProfile → StreamDependency
  | .Chrome => ⟨⟨0⟩, 255, true⟩
  | .Edge => ⟨⟨0⟩, 255, true⟩
  | .OkHttp => ⟨⟨0⟩, 255, true⟩
  | .Firefox => ⟨⟨0⟩, 255, true⟩
  | .Safari => ⟨⟨0⟩, 254, false⟩

/-- HeaderMap modelled as the ordered list of (name, value) entries, names
already lowercase and values assumed visible ASCII; iteration yields entries
in list order, and `get` returns the first value of a name. -/
abbrev HeaderMap := List (String × String)

/-- `HeaderMap::insert` of the http crate, restricted to the maps this file
builds (at most one entry per name): a fresh value replaces the value of an
existing entry in place, keeping the entry position; otherwise the entry is
appended. -/
def HeaderMap.insert (m : HeaderMap) (name value : String) : HeaderMap :=
  if m.any fun p => p.1 == name then
    m.map fun p => if p.1 == name then (name, value) else p
  else m ++ [(name, value)]

/-- Header-map extraction of `src/profile.rs` (the `From` impl for a mutable
HeaderMap): read the sentinel header if present and parse it with Chrome as
the fallback, then rebuild the map by iterating the entries and inserting
every one except the sentinel into a fresh map; returns the profile together
with the rebuilt map that replaces the original. -/
def AgentProfile.fromHeaders (headers : HeaderMap) : AgentProfile × HeaderMap :=
  let profile :=
    match headers.find? fun p => p.1 == xClientProfile with
    | some p => AgentProfile.fromString p.2
    | none => AgentProfile.Chrome
  let newHeaders := headers.foldl
    (fun acc p => if p.1 == xClientProfile then acc else HeaderMap.insert acc p.1 p.2) []
  (profile, newHeaders)

/-! Helper lemmas about the 32-bit word arithmetic of the codec. -/

/-- Setting the top bit of a 31-bit value by bitwise or is plain addition. -/
lemma lor_two_pow_31 (x : Nat) (h : x < 2 ^ 31) : x ||| 2 ^ 31 = x + 2 ^ 31 := by
  have := Nat.mul_add_lt_is_or (a := 1) h
  simpa [Nat.lor_comm, Nat.add_comm] using this.symm

/-- Reading back the big-endian bytes of a word below `2 ^ 32` recovers it. -/
lemma word32_putU32 (w : Nat) (h : w < 2 ^ 32) : word32 (putU32 w) = w := by
  simp [word32, putU32]
  omega

/-- Parsing the byte encoding of a word below `2 ^ 32` yields its low 31 bits
and its top bit. -/
lemma parse_putU32 (w : Nat) (h : w < 2 ^ 32) :
    StreamId.parse (putU32 w) = (⟨w % 2 ^ 31⟩, decide (w / 2 ^ 31 % 2 = 1)) := by
  simp only [StreamId.parse, word32_putU32 w h]

/-- Loading a buffer made of a 32-bit word and a weight byte splits the word
into its low 31 bits and its top bit. -/
lemma load_putU32 (w v : Nat) (hw : w < 2 ^ 32) :
    StreamDependency.load (putU32 w ++ [v]) =
      Except.ok ⟨⟨w % 2 ^ 31⟩, v, decide (w / 2 ^ 31 % 2 = 1)⟩ := by
  have htake : (putU32 w ++ [v]).take 4 = putU32 w := by simp [putU32]
  have hlen : (putU32 w ++ [v]).length = 5 := by simp [putU32]
  have hget : (putU32 w ++ [v]).getD 4 0 = v := by simp [putU32]
  simp only [StreamDependency.load, hlen, htake, hget, parse_putU32 w hw]
  norm_num

/-- Encoding the dependency obtained from splitting a 32-bit word recombines
the word. -/
lemma encode_of_load_word (w v : Nat) (hw : w < 2 ^ 32) :
    StreamDependency.encode ⟨⟨w % 2 ^ 31⟩, v, decide (w / 2 ^ 31 % 2 = 1)⟩ =
      putU32 w ++ [v] := by
  by_cases htop : w / 2 ^ 31 % 2 = 1
  · rw [show (decide (w / 2 ^ 31 % 2 = 1)) = true from by
      simp only [decide_eq_true_eq]; omega]
    show putU32 (w % 2 ^ 31 ||| 2 ^ 31) ++ [v] = _
    rw [lor_two_pow_31 _ (Nat.mod_lt _ (by norm_num))]
    have hwe : w % 2 ^ 31 + 2 ^ 31 = w := by omega
    rw [hwe]
  · rw [show (decide (w / 2 ^ 31 % 2 = 1)) = false from by
      simp only [decide_eq_false_iff_not]; omega]
    show putU32 (w % 2 ^ 31) ++ [v] = _
    have hwe : w % 2 ^ 31 = w := by omega
    rw [hwe]

/-- Claim C1: for every StreamDependency with a 31-bit dependency id, a weight
byte in 0 to 255 and either exclusivity flag, loading the 5 bytes written by
encode succeeds and returns the value unchanged, with no normalization. -/
theorem stream_dependency_round_trip (id w : Nat) (e : Bool)
    (hid : id < 2 ^ 31) (hw : w < 2 ^ 8) :
    StreamDependency.load (StreamDependency.encode ⟨⟨id⟩, w, e⟩) =
      Except.ok ⟨⟨id⟩, w, e⟩ := by
  have henc : StreamDependency.encode ⟨⟨id⟩, w, e⟩ =
      putU32 (if e then id + 2 ^ 31 else id) ++ [w] := by
    cases e with
    | false => rfl
    | true =>
      show putU32 (id ||| 2 ^ 31) ++ [w] = _
      rw [lor_two_pow_31 id hid]
      rfl
  have hw32 : (if e then id + 2 ^ 31 else id) < 2 ^ 32 := by
    cases e <;> simp <;> omega
  rw [henc, load_putU32 _ _ hw32]
  cases e <;> simp <;> omega

/-- Witness for C1 at the maximal 31-bit id, weight 255, exclusive. -/
theorem stream_dependency_round_trip_witness :
    StreamDependency.load (StreamDependency.encode ⟨⟨2147483647⟩, 255, true⟩) =
      Except.ok ⟨⟨2147483647⟩, 255, true⟩ :=
  stream_dependency_round_trip 2147483647 255 true (by norm_num) (by norm_num)

/-- Claim C5: StreamDependency load fails with InvalidPayloadLength exactly on
the slices whose length is not 5; in particular it never truncates or pads. -/
theorem stream_dependency_load_length (src : List Nat) :
    StreamDependency.load src = Except.error Error.InvalidPayloadLength ↔
      src.length ≠ 5 := by
  by_cases h : src.length = 5 <;> simp [StreamDependency.load, h]

/-- Claim C10: every 5-byte slice of bytes loads successfully, and encoding
the loaded value reproduces the slice byte for byte: the exclusivity flag is
the top bit of the first byte, the dependency id the remaining 31 bits, the
weight the fifth byte, and no information is lost. -/
theorem stream_dependency_load_encode (src : List Nat)
    (h5 : src.length = 5) (hb : ∀ b ∈ src, b < 2 ^ 8) :
    (StreamDependency.load src).map StreamDependency.encode = Except.ok src := by
  match src, h5 with
  | [b0, b1, b2, b3, b4], _ =>
    have h0 : b0 < 2 ^ 8 := hb b0 (by simp)
    have h1 : b1 < 2 ^ 8 := hb b1 (by simp)
    have h2 : b2 < 2 ^ 8 := hb b2 (by simp)
    have h3 : b3 < 2 ^ 8 := hb b3 (by simp)
    have hw32 : word32 [b0, b1, b2, b3] < 2 ^ 32 := by
      simp [word32]
      omega
    have hload : StreamDependency.load [b0, b1, b2, b3, b4] =
        Except.ok ⟨⟨word32 [b0, b1, b2, b3] % 2 ^ 31⟩, b4,
          decide (word32 [b0, b1, b2, b3] / 2 ^ 31 % 2 = 1)⟩ := by
      simp [StreamDependency.load, StreamId.parse, word32]
    rw [hload, Except.map, encode_of_load_word _ _ hw32]
    have hput : putU32 (word32 [b0, b1, b2, b3]) = [b0, b1, b2, b3] := by
      simp [putU32, word32]
      refine ⟨?_, ?_, ?_, ?_⟩ <;> omega
    rw [hput]
    rfl

/-- Witness for C10 on a slice with the exclusivity bit set. -/
theorem stream_dependency_load_encode_witness :
    (StreamDependency.load [128, 0, 0, 1, 7]).map StreamDependency.encode =
      Except.ok [128, 0, 0, 1, 7] :=
  stream_dependency_load_encode [128, 0, 0, 1, 7] (by decide)
    (by intro b hbmem; fin_cases hbmem <;> norm_num)

/-- Claim C2: every Priority encodes to exactly 14 bytes, a 9-byte header with
payload length 5, frame type 0x2, flags 0 and the frame's stream id, followed
by the 5-byte dependency encoding; in particular a Priority on stream 3
depending on stream 0 with weight 201, non-exclusive, encodes to the expected
14 bytes. -/
theorem priority_encode_bytes :
    (∀ p : Priority,
      Priority.encode p =
        [0, 0, 5, 2, 0] ++ putU32 p.stream_id.id ++ p.dependency.encode ∧
      (Priority.encode p).length = 14) ∧
    Priority.encode ⟨⟨3⟩, ⟨⟨0⟩, 201, false⟩⟩ =
      [0, 0, 5, 2, 0, 0, 0, 0, 3, 0, 0, 0, 0, 201] := by
  constructor
  · intro p
    constructor
    · simp [Priority.encode, Priority.head, Head.new, Head.encode, Kind.toByte]
    · simp [Priority.encode, Priority.head, Head.new, Head.encode, Kind.toByte,
        StreamDependency.encode, putU32]
  · rfl

/-- Claim C3: on a 5-byte payload, Priority load rejects with
InvalidDependencyId exactly when the decoded dependency id equals the head's
stream id, whatever the stream id (0 and the 31-bit maximum included), and
otherwise succeeds with the head's stream id and the decoded dependency. -/
theorem priority_load_cases (head : Head) (payload : List Nat)
    (h5 : payload.length = 5) :
    ((StreamId.parse (payload.take 4)).1 = head.stream_id →
      Priority.load head payload = Except.error Error.InvalidDependencyId) ∧
    ((StreamId.parse (payload.take 4)).1 ≠ head.stream_id →
      Priority.load head payload = Except.ok
        ⟨head.stream_id,
          ⟨(StreamId.parse (payload.take 4)).1, payload.getD 4 0,
            (StreamId.parse (payload.take 4)).2⟩⟩) := by
  have hload : StreamDependency.load payload = Except.ok
      ⟨(StreamId.parse (payload.take 4)).1, payload.getD 4 0,
        (StreamId.parse (payload.take 4)).2⟩ := by
    simp [StreamDependency.load, h5]
  constructor <;> intro heq <;> simp [Priority.load, hload, heq]

/-- Witness for C3: the spec's scenario 3, a frame on stream 5 whose payload
names dependency id 5, is rejected as a self-dependency. -/
theorem priority_load_cases_witness :
    Priority.load ⟨Kind.Priority, 0, ⟨5⟩⟩ [0, 0, 0, 5, 7] =
      Except.error Error.InvalidDependencyId :=
  (priority_load_cases ⟨Kind.Priority, 0, ⟨5⟩⟩ [0, 0, 0, 5, 7] (by decide)).1
    (by decide)

/-- Counterexample to claim C4: `Priority::new` applied to stream id 0
returns normally with exactly that stream id, rather than aborting — the
constructor carries no assertion (its own doc comment allows any stream id,
including 0). -/
theorem priority_new_zero_counterexample :
    Priority.new ⟨0⟩ ⟨⟨0⟩, 201, false⟩ = ⟨⟨0⟩, ⟨⟨0⟩, 201, false⟩⟩ ∧
    (Priority.new ⟨0⟩ ⟨⟨0⟩, 201, false⟩).stream_id = ⟨0⟩ :=
  ⟨rfl, rfl⟩

/-- Claim C4 as amended: `Priority::new` performs no validation at all; for
every stream id, zero included, it returns the Priority carrying exactly that
stream id and dependency. -/
theorem priority_new_no_validation (sid : StreamId) (d : StreamDependency) :
    Priority.new sid d = ⟨sid, d⟩ ∧ (Priority.new sid d).stream_id = sid ∧
      (Priority.new sid d).dependency = d :=
  ⟨rfl, rfl, rfl⟩

/-! Lemmas about the header-map rebuild of the profile extraction. -/

/-- Inserting a name that is absent from a map appends the entry. -/
lemma insert_of_not_mem (m : HeaderMap) (name value : String)
    (h : ∀ q ∈ m, q.1 ≠ name) :
    HeaderMap.insert m name value = m ++ [(name, value)] := by
  have hany : (m.any fun p => p.1 == name) = false := by
    simp only [List.any_eq_false, beq_eq_false_iff_ne, ne_eq]
    exact fun p hp => by simpa using h p hp
  simp [HeaderMap.insert, hany]

/-- The rebuild fold of the profile extraction, on entries whose names repeat
neither among themselves nor in the accumulator, appends exactly the
non-sentinel entries in order. -/
lemma foldl_insert_strip (rest : HeaderMap) :
    ∀ acc : HeaderMap,
    (∀ p ∈ rest, ∀ q ∈ acc, p.1 ≠ q.1) →
    (rest.map Prod.fst).Nodup →
    rest.foldl
      (fun acc2 p => if p.1 == xClientProfile then acc2
        else HeaderMap.insert acc2 p.1 p.2) acc =
      acc ++ rest.filter fun p => p.1 != xClientProfile := by
  induction rest with
  | nil => intro acc _ _; simp
  | cons p rest ih =>
    intro acc hdisj hnd
    simp only [List.map_cons, List.nodup_cons] at hnd
    obtain ⟨hp_notin, hnd_rest⟩ := hnd
    by_cases hx : p.1 = xClientProfile
    · rw [List.foldl_cons, if_pos (by simp [hx])]
      rw [ih acc (fun q hq r hr => hdisj q (by simp [hq]) r hr) hnd_rest]
      simp [List.filter_cons, hx]
    · rw [List.foldl_cons, if_neg (by simp [hx])]
      rw [insert_of_not_mem acc p.1 p.2
        (fun q hq => (hdisj p (by simp) q hq).symm)]
      rw [ih (acc ++ [p])
        (by
          intro q hq r hr
          rcases List.mem_append.1 hr with hr | hr
          · exact hdisj q (by simp [hq]) r hr
          · have hrp : r = p := by simpa using hr
            subst hrp
            intro hcontra
            exact hp_notin (by rw [← hcontra]; exact List.mem_map_of_mem Prod.fst hq))
        hnd_rest]
      simp [List.filter_cons, hx]

/-- Counterexample to claim C6: on a map holding two values for the same name
and no sentinel header, the claim demands the map be left unchanged, but the
rebuild keeps only the last value, so the map shrinks. -/
theorem profile_from_headers_counterexample :
    AgentProfile.fromHeaders [("a", "1"), ("a", "2")] =
      (AgentProfile.Chrome, [("a", "2")]) ∧
    (AgentProfile.fromHeaders [("a", "1"), ("a", "2")]).2 ≠
      [("a", "1"), ("a", "2")] := by
  constructor
  · rfl
  · decide

/-- Claim C6 as amended: on a header map without repeated names, extraction
removes exactly the x-client-profile entry, preserving the relative order and
values of all other headers; when the sentinel is absent it returns the
default Chrome and leaves such a map unchanged, and when present the profile
is parsed from the sentinel's value. On maps with repeated names the rebuild
keeps, for each name, a single entry holding its last value. -/
theorem profile_from_headers_strip (headers : HeaderMap)
    (hnd : (headers.map Prod.fst).Nodup) :
    (AgentProfile.fromHeaders headers).2 =
      headers.filter (fun p => p.1 != xClientProfile) ∧
    (headers.find? (fun p => p.1 == xClientProfile) = none →
      AgentProfile.fromHeaders headers = (AgentProfile.Chrome, headers)) ∧
    (∀ v, headers.find? (fun p => p.1 == xClientProfile) = some v →
      (AgentProfile.fromHeaders headers).1 = AgentProfile.fromString v.2) := by
  have hfold := foldl_insert_strip headers [] (by simp) hnd
  refine ⟨?_, ?_, ?_⟩
  · simp only [AgentProfile.fromHeaders]
    simpa using hfold
  · intro hnone
    have hall : ∀ p ∈ headers, ¬((p.1 == xClientProfile) = true) :=
      List.find?_eq_none.1 hnone
    have hfilter : (headers.filter fun p => p.1 != xClientProfile) = headers := by
      apply List.filter_eq_self.2
      intro p hp
      simpa using hall p hp
    simp only [AgentProfile.fromHeaders, hnone]
    refine Prod.ext rfl ?_
    simpa [hfilter] using hfold
  · intro v hv
    simp only [AgentProfile.fromHeaders, hv]

/-- Witness for C6 as amended: a map holding the sentinel set to okhttp and
one ordinary header is stripped to the ordinary header alone. -/
theorem profile_from_headers_strip_witness :
    (AgentProfile.fromHeaders
        [("x-client-profile", "okhttp"), ("accept", "a")]).2 =
      ([("x-client-profile", "okhttp"), ("accept", "a")] : HeaderMap).filter
        (fun p => p.1 != xClientProfile) :=
  (profile_from_headers_strip
    [("x-client-profile", "okhttp"), ("accept", "a")] (by decide)).1

/-- Claim C7: the pseudo-header ordering of each profile is the fixed
4-element table, and the profile parsed from the okhttp token orders them
Method, Path, Authority, Scheme. -/
theorem profile_pseudo_order :
    AgentProfile.toPseudoOrder .Chrome =
      [.Method, .Authority, .Scheme, .Path] ∧
    AgentProfile.toPseudoOrder .Edge =
      [.Method, .Authority, .Scheme, .Path] ∧
    AgentProfile.toPseudoOrder .OkHttp =
      [.Method, .Path, .Authority, .Scheme] ∧
    AgentProfile.toPseudoOrder .Firefox =
      [.Method, .Path, .Authority, .Scheme] ∧
    AgentProfile.toPseudoOrder .Safari =
      [.Method, .Scheme, .Path, .Authority] ∧
    AgentProfile.toPseudoOrder (AgentProfile.fromString "okhttp") =
      [.Method, .Path, .Authority, .Scheme] := by
  refine ⟨rfl, rfl, rfl, rfl, rfl, ?_⟩
  decide

/-- Claim C8: the default stream dependency of every profile targets stream 0,
with weight 255 and the exclusive flag for Chrome, Edge, OkHttp and Firefox,
and weight 254 without the exclusive flag for Safari. -/
theorem profile_stream_dependency :
    AgentProfile.toStreamDependency .Chrome = ⟨⟨0⟩, 255, true⟩ ∧
    AgentProfile.toStreamDependency .Edge = ⟨⟨0⟩, 255, true⟩ ∧
    AgentProfile.toStreamDependency .OkHttp = ⟨⟨0⟩, 255, true⟩ ∧
    AgentProfile.toStreamDependency .Firefox = ⟨⟨0⟩, 255, true⟩ ∧
    AgentProfile.toStreamDependency .Safari = ⟨⟨0⟩, 254, false⟩ :=
  ⟨rfl, rfl, rfl, rfl, rfl⟩

/-- Claim C9: profile parsing is total over strings; the five canonical tokens
map to their identities and every other string, the bogus token included, maps
to the default Chrome. -/
theorem profile_from_string_total (s : String)
    (h : s ∉ (["chrome", "firefox", "safari", "edge", "okhttp"] : List String)) :
    AgentProfile.fromString s = AgentProfile.Chrome ∧
    AgentProfile.fromString "chrome" = AgentProfile.Chrome ∧
    AgentProfile.fromString "firefox" = AgentProfile.Firefox ∧
    AgentProfile.fromString "safari" = AgentProfile.Safari ∧
    AgentProfile.fromString "edge" = AgentProfile.Edge ∧
    AgentProfile.fromString "okhttp" = AgentProfile.OkHttp ∧
    AgentProfile.fromString "bogus" = AgentProfile.fromString "chrome" := by
  simp only [List.mem_cons, List.not_mem_nil, or_false, not_or] at h
  obtain ⟨h1, h2, h3, h4, h5⟩ := h
  exact ⟨by simp [AgentProfile.fromString, h1, h2, h3, h4, h5],
    by decide, by decide, by decide, by decide, by decide, by decide⟩

/-- Witness for C9 at the bogus token. -/
theorem profile_from_string_total_witness :
    AgentProfile.fromString "bogus" = AgentProfile.Chrome :=
  (profile_from_string_total "bogus" (by decide)).1

end H2
